import Mathlib

/-!
Verification of the Bilderrahmen picture-frame mail pipeline.

Shallow embedding of the processing core:
* `src/processor.py` — attachment extraction and validation
  (`save_attachment_bytes`, `validate_and_sanitize_image`, `process_message_bytes`);
* `src/storage.py` — the crash-safe UID cursor store (`UIDStore`);
* `src/main.py`, `process_uids` — the per-message pipeline state machine.

Python exceptions are modelled with `Except PyErr`; the filesystem is an explicit
association list from path strings to file contents; fallible operating-system and
library calls (directory creation, temp-file creation, libmagic sniffing, PIL
verification) are driven by an explicit environment record so that both the
successful and the raising executions of the source code are representable.
-/

namespace Bilderrahmen

/-- Python exception classes that the embedded code can raise. -/
inductive PyErr
  | oserror
  | jsonDecodeError
  deriving DecidableEq, Repr

/-! ## Association-list file stores -/

/-- Lookup in an association list keyed by path strings (first match wins,
mirroring a map from file path to file content). -/
def lookupPairs {β : Type} : List (String × β) → String → Option β
  | [], _ => none
  | (q, d) :: rest, p => if q = p then some d else lookupPairs rest p

/-- Update the binding of a key in an association list, appending it if absent. -/
def setPairs {β : Type} : List (String × β) → String → β → List (String × β)
  | [], p, c => [(p, c)]
  | (q, d) :: rest, p, c => if q = p then (p, c) :: rest else (q, d) :: setPairs rest p c

/-- Remove every binding of a key from an association list. -/
def delPairs {β : Type} : List (String × β) → String → List (String × β)
  | [], _ => []
  | (q, d) :: rest, p => if q = p then delPairs rest p else (q, d) :: delPairs rest p

/-! ## Path helpers (`os.path.basename`, `os.path.dirname`) -/

/-- Content of a path after its last slash, as `os.path.basename` computes for the
paths this program builds. -/
def basename (s : String) : String :=
  String.mk ((s.data.reverse.takeWhile (fun c => !(c == '/'))).reverse)

/-- Directory prefix of a path, up to and including its last slash; two paths lie
in the same directory exactly when their `dirname`s agree. -/
def dirname (s : String) : String :=
  String.mk ((s.data.reverse.dropWhile (fun c => !(c == '/'))).reverse)

/-! ## Attachment extractor model (`src/processor.py`)

An email message is represented by the list of parts its `msg.walk()` traversal
yields (`email.message_from_bytes` is total on bytes, so parsing itself is not a
failure point); each part carries the fields the extractor reads. Payload bytes
are `List Nat`. -/

/-- One part of a parsed message, with the fields `process_message_bytes` reads:
the Content-Disposition header (empty string when absent), whether the part is a
multipart container, the declared filename, and the decoded payload
(`get_payload(decode=True)`, `none` when it yields `None`). -/
structure Part where
  contentDisposition : String
  isMultipartContainer : Bool
  filename : Option String
  payload : Option (List Nat)
  deriving DecidableEq, Repr

/-- Environment of fallible system and library calls the extractor makes. The
boolean fields say whether the corresponding call succeeds or raises `OSError`;
`sniffMime` is libmagic's content-based MIME sniff and `pilVerifyOk` says whether
PIL `Image.open` + `verify` accepts the bytes. -/
structure Env where
  makedirsOk : Bool
  mkstempOk : Bool
  removeOk : Bool
  replaceOk : Bool
  sniffMime : List Nat → String
  pilVerifyOk : List Nat → Bool

/-- Filesystem state: files as a path-to-bytes association list, plus the
freshness source used by `tempfile.mkstemp` (each call consumes one fresh
token, so no two calls ever return the same path). -/
structure FS where
  files : List (String × List Nat)
  mkstempCounter : Nat
  deriving DecidableEq, Repr

/-- Rendering of the n-th fresh token `tempfile.mkstemp` embeds in the generated
name; only its freshness (injectivity across calls) matters, so it is rendered
as a run of n marker characters. -/
def freshSuffix (n : Nat) : String :=
  String.mk (List.replicate n 'x')

/-- Path generated by `tempfile.mkstemp(prefix="attach-", suffix="-" + filename,
dir=tmp_dir)`. -/
def mkstempPath (tmp_dir : String) (n : Nat) (filename : String) : String :=
  tmp_dir ++ "/attach-" ++ freshSuffix n ++ "-" ++ filename

/-- Transcription of `processor._is_image_mime`, i.e. of
`mime.startswith("image/")`, as a prefix test on the character lists. -/
def is_image_mime (mime : String) : Bool :=
  List.isPrefixOf "image/".data mime.data

/-- Transcription of `processor.save_attachment_bytes`: ensure the temp directory
exists, create a uniquely named temp file there, write the bytes, flush and
fsync. `os.makedirs`, `mkstemp` and the write can raise `OSError`, collapsed into
the single `mkstempOk` guard (the observable outcome is the same: either the
fully written temp file exists and its path is returned, or `OSError`
propagates). -/
def save_attachment_bytes (env : Env) (fs : FS) (data : List Nat)
    (tmp_dir filename : String) : Except PyErr (String × FS) :=
  if env.mkstempOk then
    let path := mkstempPath tmp_dir fs.mkstempCounter filename
    Except.ok (path, { files := (path, data) :: fs.files, mkstempCounter := fs.mkstempCounter + 1 })
  else Except.error PyErr.oserror

/-- Transcription of `processor.validate_and_sanitize_image`: sniff the MIME type
with libmagic (raises `OSError` if the file cannot be read — this call is outside
any try block in the source), reject non-`image/*` types, then verify integrity
with PIL; PIL exceptions are caught in the source and mapped to `False`. -/
def validate_and_sanitize_image (env : Env) (fs : FS) (path : String) :
    Except PyErr Bool :=
  match lookupPairs fs.files path with
  | none => Except.error PyErr.oserror
  | some content =>
    if ¬ is_image_mime (env.sniffMime content) then Except.ok false
    else Except.ok (env.pilVerifyOk content)

/-- Transcription of `os.remove(tmp_path)` under the source's try/except: a
failing remove is swallowed and leaves the filesystem unchanged. -/
def removeQuiet (env : Env) (fs : FS) (path : String) : FS :=
  if env.removeOk then { fs with files := delPairs fs.files path } else fs

/-- Transcription of `os.replace(tmp_path, final_path)`: atomically rename
`src` over `dst` (can raise `OSError`, guarded by `replaceOk` at the call
site). Renaming a path onto itself leaves the file in place. -/
def replaceFile (fs : FS) (src dst : String) : FS :=
  match lookupPairs fs.files src with
  | none => fs
  | some c =>
    if src = dst then fs
    else { fs with files := setPairs (delPairs fs.files src) dst c }

/-- Dictionary returned by `process_message_bytes`, with the keys the source
uses: the success flag, the failure reason, the oversized attachment's filename,
and the stored paths. -/
structure ProcResult where
  ok : Bool
  reason : Option String
  filename : Option String
  paths : List String
  deriving DecidableEq, Repr

/-- Transcription of `filename = part.get_filename() or "attachment"` (Python
`or` replaces both `None` and the empty string). -/
def partFilename (p : Part) : String :=
  match p.filename with
  | none => "attachment"
  | some s => if s = "" then "attachment" else s

/-- A part that reaches the size check in the extraction loop: it has a
Content-Disposition header, is not a multipart container, and its decoded
payload is neither `None` nor empty. -/
def isProcessedAttachment (p : Part) : Bool :=
  !(p.contentDisposition == "") && !p.isMultipartContainer &&
    (match p.payload with
     | none => false
     | some pl => !pl.isEmpty)

/-- A part whose decoded payload exceeds the attachment size limit. -/
def oversized (p : Part) (max_bytes : Nat) : Bool :=
  isProcessedAttachment p &&
    (match p.payload with
     | none => false
     | some pl => max_bytes < pl.length)

/-- The `for part in msg.walk()` loop body of `process_message_bytes`, with the
accumulated `saved_paths`: skip parts without a Content-Disposition header,
multipart containers, and empty payloads; fail the whole message on an oversized
payload; otherwise save to a temp file, validate, delete the temp file of an
invalid image (continuing with the next part), and atomically move a valid image
into the data directory. -/
def processLoop (env : Env) (tmp_dir data_dir : String) (max_bytes : Nat) :
    List Part → FS → List String → Except PyErr (ProcResult × FS)
  | [], fs, saved_paths =>
    if saved_paths.isEmpty then
      Except.ok ({ ok := false, reason := some "no_valid_image",
                   filename := none, paths := [] }, fs)
    else
      Except.ok ({ ok := true, reason := none, filename := none,
                   paths := saved_paths }, fs)
  | part :: rest, fs, saved_paths =>
    if part.contentDisposition = "" then
      processLoop env tmp_dir data_dir max_bytes rest fs saved_paths
    else if part.isMultipartContainer then
      processLoop env tmp_dir data_dir max_bytes rest fs saved_paths
    else
      match part.payload with
      | none => processLoop env tmp_dir data_dir max_bytes rest fs saved_paths
      | some payload =>
        if payload.isEmpty then
          processLoop env tmp_dir data_dir max_bytes rest fs saved_paths
        else if max_bytes < payload.length then
          Except.ok ({ ok := false, reason := some "attachment_too_large",
                       filename := some (partFilename part), paths := [] }, fs)
        else
          match save_attachment_bytes env fs payload tmp_dir (partFilename part) with
          | Except.error e => Except.error e
          | Except.ok (tmp_path, fs1) =>
            match validate_and_sanitize_image env fs1 tmp_path with
            | Except.error e => Except.error e
            | Except.ok false =>
              processLoop env tmp_dir data_dir max_bytes rest
                (removeQuiet env fs1 tmp_path) saved_paths
            | Except.ok true =>
              let final_path := data_dir ++ "/" ++ basename tmp_path
              if env.replaceOk then
                processLoop env tmp_dir data_dir max_bytes rest
                  (replaceFile fs1 tmp_path final_path) (saved_paths ++ [final_path])
              else Except.error PyErr.oserror

/-- Transcription of `processor.process_message_bytes`: parse the message (the
input here is already the part list of the parsed message), `os.makedirs` the
data directory (uncaught `OSError` on failure), then run the extraction loop. -/
def process_message_bytes (env : Env) (parts : List Part) (fs : FS)
    (tmp_dir data_dir : String) (max_bytes : Nat) : Except PyErr (ProcResult × FS) :=
  if env.makedirsOk then processLoop env tmp_dir data_dir max_bytes parts fs []
  else Except.error PyErr.oserror

/-! ## Pipeline state machine (`src/main.py`, `process_uids`)

The per-message pipeline is embedded as a step function over oracles for the
outcome of each fallible step, producing the new cursor value and the trace of
side-effecting events the message caused. The configuration reads
(`config.read_setting`, `config.read_setting_int`) are the excluded
configuration collaborator and are modelled as never raising. The steps that the
source wraps in their own try/except blocks (prepare, notify, delete,
empty-trash, display, and the `store.set_last_uid` call) cannot alter control
flow by raising, so only prepare — whose result gates the display step — needs
an outcome oracle. -/

/-- Outcome of the extraction step as the pipeline reads it: the `ok` flag of the
returned dictionary together with the stored paths, or the failure reason. -/
inductive ExtractOutcome
  | pass (paths : List String)
  | fail (reason : String)
  deriving DecidableEq, Repr

/-- Per-message step oracles: whether `fetch_message_bytes(uid)` returns raw
bytes (rather than raising), whether reading the From header of the fetched
message succeeds, the outcome of `process_message_bytes` (a result dictionary,
or an exception escaping it), and the outcome of `prepare_image_for_display`
(whether a prepared image was produced; an exception there is caught and leaves
no prepared image). -/
structure PipeEnv where
  fetchOk : Nat → Bool
  parseFromOk : Nat → Bool
  extract : Nat → Except PyErr ExtractOutcome
  prepare : Nat → Except PyErr Bool

/-- Observable side-effecting events of the pipeline, tagged with the message
identifier; `setCursor uid v` is the `store.set_last_uid(v)` call made after
processing `uid`. -/
inductive Ev
  | fetch (uid : Nat)
  | extract (uid : Nat)
  | prepare (uid : Nat)
  | notify (uid : Nat)
  | delete (uid : Nat)
  | emptyTrash (uid : Nat)
  | display (uid : Nat)
  | setCursor (uid : Nat) (v : Nat)
  deriving DecidableEq, Repr

/-- Message identifier an event is tagged with. -/
def Ev.uid : Ev → Nat
  | .fetch u => u
  | .extract u => u
  | .prepare u => u
  | .notify u => u
  | .delete u => u
  | .emptyTrash u => u
  | .display u => u
  | .setCursor u _ => u

/-- Body of the per-UID try block of `process_uids` (main.py lines 619-729),
laid out one control path per branch. An exception from fetch, From-header
parsing, or extraction reaches the enclosing per-message handler and abandons
the message with the cursor unchanged; after a completed extraction the
remaining steps run in source order — prepare (only when the result is a success
with a nonempty path list), notify, delete, empty-trash, display (only when a
prepared image exists) — and the cursor is then set to `max last uid` and
persisted. -/
def processOne (env : PipeEnv) (last uid : Nat) : Nat × List Ev :=
  if env.fetchOk uid then
    if env.parseFromOk uid then
      match env.extract uid with
      | Except.error _ => (last, [Ev.fetch uid, Ev.extract uid])
      | Except.ok (ExtractOutcome.fail _) =>
        (max last uid,
         [Ev.fetch uid, Ev.extract uid, Ev.notify uid, Ev.delete uid,
          Ev.emptyTrash uid, Ev.setCursor uid (max last uid)])
      | Except.ok (ExtractOutcome.pass paths) =>
        if paths.isEmpty then
          (max last uid,
           [Ev.fetch uid, Ev.extract uid, Ev.notify uid, Ev.delete uid,
            Ev.emptyTrash uid, Ev.setCursor uid (max last uid)])
        else
          match env.prepare uid with
          | Except.ok true =>
            (max last uid,
             [Ev.fetch uid, Ev.extract uid, Ev.prepare uid, Ev.notify uid,
              Ev.delete uid, Ev.emptyTrash uid, Ev.display uid,
              Ev.setCursor uid (max last uid)])
          | Except.ok false =>
            (max last uid,
             [Ev.fetch uid, Ev.extract uid, Ev.prepare uid, Ev.notify uid,
              Ev.delete uid, Ev.emptyTrash uid, Ev.setCursor uid (max last uid)])
          | Except.error _ =>
            (max last uid,
             [Ev.fetch uid, Ev.extract uid, Ev.prepare uid, Ev.notify uid,
              Ev.delete uid, Ev.emptyTrash uid, Ev.setCursor uid (max last uid)])
    else (last, [Ev.fetch uid])
  else (last, [Ev.fetch uid])

/-- The `for uid in sorted(uids)` loop of `process_uids` over an already sorted
list: skip identifiers at or below the cursor before doing anything, otherwise
run the per-message pipeline and continue with its updated cursor. -/
def processBatch (env : PipeEnv) : List Nat → Nat → Nat × List Ev
  | [], last => (last, [])
  | uid :: rest, last =>
    if uid ≤ last then processBatch env rest last
    else
      ((processBatch env rest (processOne env last uid).1).1,
       (processOne env last uid).2 ++ (processBatch env rest (processOne env last uid).1).2)

/-- Transcription of `main.process_uids`: process the batch in ascending UID
order and return the final cursor, together with the event trace. -/
def process_uids (env : PipeEnv) (uids : List Nat) (last_uid : Nat) : Nat × List Ev :=
  processBatch env (uids.mergeSort (fun a b => decide (a ≤ b))) last_uid

/-- Identifiers of the messages the pipeline actually processed (each processed
message starts with exactly one fetch request). -/
def processedUids (trace : List Ev) : List Nat :=
  trace.filterMap (fun e => match e with | Ev.fetch u => some u | _ => none)

/-! ## Cursor store (`src/storage.py`, `UIDStore`)

The store file and its sibling temp file are modelled in a dedicated filesystem
of path-to-content bindings, where a content is either a completely serialized
JSON record or unparseable garbage. `UIDStore.save` is additionally given
small-step semantics (`saveOps` / `crashStates`) so that crash points between
and inside its system calls can be examined: truncating `open` and a partial
`json.dump` can leave the temp file as garbage, `fsync` changes no content, and
`os.replace` is atomic — a crash observes it either not at all or completely. -/

/-- The key-value record `UIDStore` serializes (`json.dump` of a dict with
integer values). -/
def StoreData := List (String × Int)

/-- Content of a file in the store's directory: a complete serialized record,
or bytes that do not parse as JSON (truncated or partially written data). -/
inductive FileContent
  | json (d : List (String × Int))
  | garbage
  deriving DecidableEq, Repr

/-- Filesystem the store operates on: path-to-content bindings. -/
structure StoreFS where
  files : List (String × FileContent)
  deriving DecidableEq, Repr

/-- Content at a path, `none` when the path does not exist. -/
def StoreFS.getF (fs : StoreFS) (p : String) : Option FileContent :=
  lookupPairs fs.files p

/-- System calls `UIDStore.save` performs, as small steps. -/
inductive MicroOp
  | openTruncate (p : String)
  | writeRecord (p : String) (d : List (String × Int))
  | fsyncFile (p : String)
  | renameFile (src dst : String)
  deriving DecidableEq, Repr

/-- Effect of a completed small step: `open(p, "w")` truncates `p` (an empty
file is not a parseable record), a completed `json.dump` leaves the full record,
`fsync` changes no content, and `os.replace` atomically moves `src` over
`dst`. -/
def applyOp : MicroOp → StoreFS → StoreFS
  | MicroOp.openTruncate p, fs => ⟨setPairs fs.files p FileContent.garbage⟩
  | MicroOp.writeRecord p d, fs => ⟨setPairs fs.files p (FileContent.json d)⟩
  | MicroOp.fsyncFile _, fs => fs
  | MicroOp.renameFile src dst, fs =>
    match lookupPairs fs.files src with
    | none => fs
    | some c =>
      if src = dst then fs else ⟨setPairs (delPairs fs.files src) dst c⟩

/-- Filesystem states a crash during one small step can leave behind (the state
after the completed step is accounted for by `crashStates`): truncation and
`json.dump` may have partially happened, leaving garbage; `fsync` writes no
content; `os.replace` is atomic, so a crash mid-rename observes the unrenamed
state. -/
def midStates : MicroOp → StoreFS → List StoreFS
  | MicroOp.openTruncate p, fs => [fs, ⟨setPairs fs.files p FileContent.garbage⟩]
  | MicroOp.writeRecord p _, fs => [fs, ⟨setPairs fs.files p FileContent.garbage⟩]
  | MicroOp.fsyncFile _, fs => [fs]
  | MicroOp.renameFile _ _, fs => [fs]

/-- All filesystem states observable if the process crashes at any point while
the given small steps execute in order (including before the first and after the
last). -/
def crashStates : List MicroOp → StoreFS → List StoreFS
  | [], fs => [fs]
  | op :: ops, fs => midStates op fs ++ crashStates ops (applyOp op fs)

/-- Small steps of `UIDStore.save` (storage.py lines 23-29): serialize to the
sibling temp file `path + ".tmp"`, flush and fsync it, then atomically rename it
over the target path. -/
def saveOps (path : String) (d : List (String × Int)) : List MicroOp :=
  [MicroOp.openTruncate (path ++ ".tmp"),
   MicroOp.writeRecord (path ++ ".tmp") d,
   MicroOp.fsyncFile (path ++ ".tmp"),
   MicroOp.renameFile (path ++ ".tmp") path]

/-- Transcription of `UIDStore.save` as the completed execution of its small
steps. -/
def UIDStore.save (fs : StoreFS) (path : String) (d : List (String × Int)) : StoreFS :=
  (saveOps path d).foldl (fun s op => applyOp op s) fs

/-- Transcription of `UIDStore.load`: a missing file yields the empty record,
a stored record is parsed back, and unparseable content raises
`json.JSONDecodeError`. -/
def UIDStore.load (fs : StoreFS) (path : String) : Except PyErr (List (String × Int)) :=
  match fs.getF path with
  | none => Except.ok []
  | some (FileContent.json d) => Except.ok d
  | some FileContent.garbage => Except.error PyErr.jsonDecodeError

/-- Transcription of `UIDStore.get_last_uid`: load the record and look up the
`last_uid` key. -/
def UIDStore.get_last_uid (fs : StoreFS) (path : String) : Except PyErr (Option Int) :=
  match UIDStore.load fs path with
  | Except.error e => Except.error e
  | Except.ok d => Except.ok (lookupPairs d "last_uid")

/-- Transcription of `UIDStore.set_last_uid`: load the current record, set the
`last_uid` key, and save. -/
def UIDStore.set_last_uid (fs : StoreFS) (path : String) (uid : Int) :
    Except PyErr StoreFS :=
  match UIDStore.load fs path with
  | Except.error e => Except.error e
  | Except.ok d => Except.ok (UIDStore.save fs path (setPairs d "last_uid" uid))

/-- Python `x or 0` as `main.py` line 757 applies it to the loaded cursor. -/
def pyOrZero : Option Int → Int
  | none => 0
  | some x => if x = 0 then 0 else x

/-- Cursor value `main` starts with: `store.get_last_uid() or 0`. -/
def mainInitCursor (fs : StoreFS) (path : String) : Except PyErr Int :=
  match UIDStore.get_last_uid fs path with
  | Except.error e => Except.error e
  | Except.ok v => Except.ok (pyOrZero v)

/-! ## Helper lemmas on the association-list stores and on paths -/

theorem lookupPairs_setPairs_self {β : Type} (l : List (String × β)) (p : String) (c : β) :
    lookupPairs (setPairs l p c) p = some c := by
  induction l with
  | nil => simp [setPairs, lookupPairs]
  | cons hd tl ih =>
    rcases hd with ⟨q, d⟩
    by_cases hq : q = p
    · simp [setPairs, lookupPairs, hq]
    · simp [setPairs, lookupPairs, hq, ih]

theorem lookupPairs_setPairs_ne {β : Type} (l : List (String × β)) (p q : String) (c : β)
    (h : p ≠ q) : lookupPairs (setPairs l p c) q = lookupPairs l q := by
  induction l with
  | nil => simp [setPairs, lookupPairs, h]
  | cons hd tl ih =>
    rcases hd with ⟨r, d⟩
    by_cases hr : r = p
    · subst hr
      simp [setPairs, lookupPairs, h]
    · by_cases hrq : r = q
      · subst hrq
        simp [setPairs, lookupPairs, hr]
      · simp [setPairs, lookupPairs, hr, hrq, ih]

theorem lookupPairs_delPairs_self {β : Type} (l : List (String × β)) (p : String) :
    lookupPairs (delPairs l p) p = none := by
  induction l with
  | nil => simp [delPairs, lookupPairs]
  | cons hd tl ih =>
    rcases hd with ⟨q, d⟩
    by_cases hq : q = p
    · simp [delPairs, hq, ih]
    · simp [delPairs, lookupPairs, hq, ih]

theorem lookupPairs_delPairs_ne {β : Type} (l : List (String × β)) (p q : String)
    (h : p ≠ q) : lookupPairs (delPairs l p) q = lookupPairs l q := by
  induction l with
  | nil => simp [delPairs]
  | cons hd tl ih =>
    rcases hd with ⟨r, d⟩
    by_cases hr : r = p
    · subst hr
      simp [delPairs, lookupPairs, h, ih]
    · by_cases hrq : r = q
      · subst hrq
        simp [delPairs, lookupPairs, hr]
      · simp [delPairs, lookupPairs, hr, hrq, ih]

theorem append_tmp_ne (p : String) : p ++ ".tmp" ≠ p := by
  intro h
  have hlen := congrArg String.length h
  rw [String.length_append] at hlen
  have : (".tmp" : String).length = 4 := rfl
  omega

theorem dirname_append_tmp (p : String) : dirname (p ++ ".tmp") = dirname p := by
  unfold dirname
  rw [String.data_append]
  have hd : (".tmp" : String).data = ['.', 't', 'm', 'p'] := rfl
  rw [hd, List.reverse_append, List.dropWhile_append]
  have hdrop : List.dropWhile (fun c => !(c == '/')) (List.reverse ['.', 't', 'm', 'p']) = [] := rfl
  rw [hdrop]
  rfl

theorem crashStates_saveOps (fs : StoreFS) (path : String) (d : List (String × Int)) :
    ∀ fs' ∈ crashStates (saveOps path d) fs,
      fs'.getF path = fs.getF path ∨ fs'.getF path = some (FileContent.json d) := by
  intro fs' hmem
  have hne : path ++ ".tmp" ≠ path := append_tmp_ne path
  simp only [saveOps, crashStates, midStates, applyOp, lookupPairs_setPairs_self,
    List.cons_append, List.nil_append, List.mem_cons, List.mem_singleton,
    List.not_mem_nil, or_false, if_neg hne] at hmem
  rcases hmem with h | h | h | h | h | h | h <;> subst h <;>
    simp [StoreFS.getF, lookupPairs_setPairs_self, lookupPairs_setPairs_ne,
      lookupPairs_delPairs_ne, hne]

theorem save_getF (fs : StoreFS) (path : String) (d : List (String × Int)) :
    (UIDStore.save fs path d).getF path = some (FileContent.json d) := by
  have hne : path ++ ".tmp" ≠ path := append_tmp_ne path
  simp [UIDStore.save, saveOps, applyOp, lookupPairs_setPairs_self, if_neg hne,
    StoreFS.getF]

/-- C3: `set_last_uid` serializes the updated record to the sibling temp file
`path + ".tmp"` in the same directory, fsyncs it, and atomically renames it over
the target, so every crash point during the write leaves the store holding
either the complete old content or the complete new record, never a partial
one. -/
theorem uidstore_set_last_uid_atomic (fs : StoreFS) (path : String) (uid : Int)
    (d : List (String × Int)) (hload : UIDStore.load fs path = Except.ok d) :
    (dirname (path ++ ".tmp") = dirname path ∧ path ++ ".tmp" ≠ path) ∧
    UIDStore.set_last_uid fs path uid =
      Except.ok (UIDStore.save fs path (setPairs d "last_uid" uid)) ∧
    (UIDStore.save fs path (setPairs d "last_uid" uid)).getF path =
      some (FileContent.json (setPairs d "last_uid" uid)) ∧
    ∀ fs' ∈ crashStates (saveOps path (setPairs d "last_uid" uid)) fs,
      fs'.getF path = fs.getF path ∨
        fs'.getF path = some (FileContent.json (setPairs d "last_uid" uid)) := by
  refine ⟨⟨dirname_append_tmp path, append_tmp_ne path⟩, ?_,
    save_getF fs path (setPairs d "last_uid" uid),
    crashStates_saveOps fs path (setPairs d "last_uid" uid)⟩
  simp [UIDStore.set_last_uid, hload]

/-- Witness for C3 at a concrete store holding `last_uid = 3`, persisting 7. -/
theorem uidstore_set_last_uid_atomic_witness :
    UIDStore.load ⟨[("s/u.json", FileContent.json [("last_uid", 3)])]⟩ "s/u.json" =
      Except.ok [("last_uid", 3)] ∧
    ((dirname ("s/u.json" ++ ".tmp") = dirname "s/u.json" ∧
        "s/u.json" ++ ".tmp" ≠ "s/u.json") ∧
      UIDStore.set_last_uid ⟨[("s/u.json", FileContent.json [("last_uid", 3)])]⟩
          "s/u.json" 7 =
        Except.ok (UIDStore.save ⟨[("s/u.json", FileContent.json [("last_uid", 3)])]⟩
          "s/u.json" (setPairs [("last_uid", 3)] "last_uid" 7)) ∧
      (UIDStore.save ⟨[("s/u.json", FileContent.json [("last_uid", 3)])]⟩
          "s/u.json" (setPairs [("last_uid", 3)] "last_uid" 7)).getF "s/u.json" =
        some (FileContent.json (setPairs [("last_uid", 3)] "last_uid" 7)) ∧
      ∀ fs' ∈ crashStates (saveOps "s/u.json" (setPairs [("last_uid", 3)] "last_uid" 7))
          ⟨[("s/u.json", FileContent.json [("last_uid", 3)])]⟩,
        fs'.getF "s/u.json" =
            StoreFS.getF ⟨[("s/u.json", FileContent.json [("last_uid", 3)])]⟩ "s/u.json" ∨
          fs'.getF "s/u.json" =
            some (FileContent.json (setPairs [("last_uid", 3)] "last_uid" 7))) :=
  ⟨rfl, uidstore_set_last_uid_atomic _ "s/u.json" 7 [("last_uid", 3)] rfl⟩

/-- C4 counterexample: on a store file with unparseable content,
`get_last_uid` raises `json.JSONDecodeError` instead of returning the
"no cursor recorded" default. -/
theorem uidstore_get_last_uid_corrupt_raises :
    UIDStore.get_last_uid ⟨[("p", FileContent.garbage)]⟩ "p" =
      Except.error PyErr.jsonDecodeError := rfl

/-- C4 (amended): reading the cursor from a missing store file returns no value
without raising, and the caller in `main` turns that into cursor 0; but a
corrupt (unparseable) store file makes `get_last_uid` raise
`json.JSONDecodeError` rather than defaulting to 0. -/
theorem uidstore_get_last_uid_read_failures :
    (∀ (fs : StoreFS) (path : String), fs.getF path = none →
      UIDStore.get_last_uid fs path = Except.ok none ∧
        mainInitCursor fs path = Except.ok 0) ∧
    (∀ (fs : StoreFS) (path : String), fs.getF path = some FileContent.garbage →
      UIDStore.get_last_uid fs path = Except.error PyErr.jsonDecodeError) := by
  constructor
  · intro fs path h
    constructor
    · simp [UIDStore.get_last_uid, UIDStore.load, h, lookupPairs]
    · simp [mainInitCursor, UIDStore.get_last_uid, UIDStore.load, h, lookupPairs, pyOrZero]
  · intro fs path h
    simp [UIDStore.get_last_uid, UIDStore.load, h]

/-- Witness for C4 on a missing store file and on a corrupt one. -/
theorem uidstore_get_last_uid_read_failures_witness :
    (StoreFS.getF ⟨[]⟩ "p" = none ∧
      UIDStore.get_last_uid ⟨[]⟩ "p" = Except.ok none ∧
        mainInitCursor ⟨[]⟩ "p" = Except.ok 0) ∧
    (StoreFS.getF ⟨[("p", FileContent.garbage)]⟩ "p" = some FileContent.garbage ∧
      UIDStore.get_last_uid ⟨[("p", FileContent.garbage)]⟩ "p" =
        Except.error PyErr.jsonDecodeError) :=
  ⟨⟨rfl, uidstore_get_last_uid_read_failures.1 ⟨[]⟩ "p" rfl⟩,
   ⟨rfl, uidstore_get_last_uid_read_failures.2 ⟨[("p", FileContent.garbage)]⟩ "p" rfl⟩⟩

/-! ## Pipeline lemmas and claims about `process_uids` -/

/-- Oracle assignment of a run in which every step of every message succeeds and
extraction stores one file. -/
def envAllOk : PipeEnv :=
  ⟨fun _ => true, fun _ => true,
   fun _ => Except.ok (ExtractOutcome.pass ["img"]), fun _ => Except.ok true⟩

/-- Oracle assignment of a run in which fetch succeeds but an exception escapes
`process_message_bytes`. -/
def envExtractRaises : PipeEnv :=
  ⟨fun _ => true, fun _ => true, fun _ => Except.error PyErr.oserror,
   fun _ => Except.ok true⟩

/-- Oracle assignment of a run in which extraction completes with a failure
result and the prepare step raises. -/
def envStepsFail : PipeEnv :=
  ⟨fun _ => true, fun _ => true,
   fun _ => Except.ok (ExtractOutcome.fail "no_valid_image"),
   fun _ => Except.error PyErr.oserror⟩

theorem processOne_spec (env : PipeEnv) (last uid : Nat) :
    processOne env last uid = (last, [Ev.fetch uid]) ∨
    processOne env last uid = (last, [Ev.fetch uid, Ev.extract uid]) ∨
    processOne env last uid =
      (max last uid,
       [Ev.fetch uid, Ev.extract uid, Ev.notify uid, Ev.delete uid,
        Ev.emptyTrash uid, Ev.setCursor uid (max last uid)]) ∨
    processOne env last uid =
      (max last uid,
       [Ev.fetch uid, Ev.extract uid, Ev.prepare uid, Ev.notify uid,
        Ev.delete uid, Ev.emptyTrash uid, Ev.setCursor uid (max last uid)]) ∨
    processOne env last uid =
      (max last uid,
       [Ev.fetch uid, Ev.extract uid, Ev.prepare uid, Ev.notify uid,
        Ev.delete uid, Ev.emptyTrash uid, Ev.display uid,
        Ev.setCursor uid (max last uid)]) := by
  unfold processOne
  by_cases hf : env.fetchOk uid
  case neg => simp [hf]
  by_cases hp : env.parseFromOk uid
  case neg => simp [hf, hp]
  rcases hex : env.extract uid with e | r
  · simp [hf, hp, hex]
  rcases r with paths | reason
  · by_cases hpe : paths.isEmpty
    · simp [hf, hp, hex, hpe]
    · rcases hpr : env.prepare uid with e | b
      · simp [hf, hp, hex, hpe, hpr]
      · cases b <;> simp [hf, hp, hex, hpe, hpr]
  · simp [hf, hp, hex]

theorem processOne_fst (env : PipeEnv) (last uid : Nat) :
    (processOne env last uid).1 = last ∨ (processOne env last uid).1 = max last uid := by
  rcases processOne_spec env last uid with h | h | h | h | h <;> (rw [h]; simp)

theorem le_processOne_fst (env : PipeEnv) (last uid : Nat) :
    last ≤ (processOne env last uid).1 := by
  rcases processOne_fst env last uid with h | h <;> (rw [h]; try omega)

theorem processedUids_append (a b : List Ev) :
    processedUids (a ++ b) = processedUids a ++ processedUids b :=
  List.filterMap_append a b _

theorem processOne_uid_events (env : PipeEnv) (last uid : Nat) :
    ∀ e ∈ (processOne env last uid).2, e.uid = uid := by
  rcases processOne_spec env last uid with h | h | h | h | h <;>
    (rw [h]; simp [Ev.uid])

theorem processedUids_processOne (env : PipeEnv) (last uid : Nat) :
    processedUids (processOne env last uid).2 = [uid] := by
  rcases processOne_spec env last uid with h | h | h | h | h <;> rw [h] <;>
    simp [processedUids]

theorem processBatch_events_gt (env : PipeEnv) (l : List Nat) (last : Nat) :
    ∀ e ∈ (processBatch env l last).2, last < e.uid := by
  induction l generalizing last with
  | nil => simp [processBatch]
  | cons uid rest ih =>
    simp only [processBatch]
    by_cases h : uid ≤ last
    · simpa [h] using ih last
    · intro e he
      simp only [if_neg h, List.mem_append] at he
      rcases he with he | he
      · have := processOne_uid_events env last uid e he
        omega
      · have h1 := ih (processOne env last uid).1 e he
        have h2 := le_processOne_fst env last uid
        omega

theorem processBatch_processed (env : PipeEnv) (l : List Nat) (last : Nat)
    (hl : List.Pairwise (· < ·) l) :
    processedUids (processBatch env l last).2 =
      l.filter (fun u => decide (last < u)) := by
  induction l generalizing last with
  | nil => simp [processBatch, processedUids]
  | cons uid rest ih =>
    obtain ⟨huid, hrest⟩ := List.pairwise_cons.mp hl
    simp only [processBatch]
    by_cases h : uid ≤ last
    · have hdec : decide (last < uid) = false := by simp; omega
      simp [h, List.filter_cons, hdec, ih last hrest]
    · have hdec : decide (last < uid) = true := by simp; omega
      have hfst : (processOne env last uid).1 = last ∨
          (processOne env last uid).1 = max last uid := processOne_fst env last uid
      have hfilter1 : rest.filter (fun u => decide ((processOne env last uid).1 < u)) = rest := by
        rw [List.filter_eq_self]
        intro u hu
        have := huid u hu
        rcases hfst with hf | hf <;> rw [hf] <;> simp <;> omega
      have hfilter2 : rest.filter (fun u => decide (last < u)) = rest := by
        rw [List.filter_eq_self]
        intro u hu
        have := huid u hu
        simp
        omega
      rw [if_neg h, processedUids_append, processedUids_processOne, ih _ hrest,
        hfilter1, List.filter_cons, hdec, hfilter2, List.singleton_append]
      simp

/-- C7: over a batch of distinct identifiers, the pipeline processes messages in
strictly ascending identifier order, every identifier it processes exceeds the
cursor it started with, and an identifier at or below the initial cursor causes
no side effect at all — no fetch, notify, display, or any other event. -/
theorem process_uids_ordering (env : PipeEnv) (uids : List Nat) (last : Nat)
    (hnd : uids.Nodup) :
    List.Chain' (· < ·) (processedUids (process_uids env uids last).2) ∧
    (∀ u ∈ processedUids (process_uids env uids last).2, last < u) ∧
    (∀ u ∈ uids, u ≤ last → ∀ e ∈ (process_uids env uids last).2, e.uid ≠ u) := by
  have hperm : List.Perm (uids.mergeSort (fun a b => decide (a ≤ b))) uids :=
    List.mergeSort_perm uids (fun a b => decide (a ≤ b))
  have hsorted : List.Pairwise (fun a b => decide (a ≤ b) = true)
      (uids.mergeSort (fun a b => decide (a ≤ b))) := by
    apply List.sorted_mergeSort
    · intro a b c hab hbc
      simp at hab hbc ⊢
      omega
    · intro a b
      simp
      omega
  have hnd' : (uids.mergeSort (fun a b => decide (a ≤ b))).Nodup :=
    hperm.symm.nodup hnd
  have hlt : List.Pairwise (· < ·) (uids.mergeSort (fun a b => decide (a ≤ b))) := by
    have hle : List.Pairwise (· ≤ ·) (uids.mergeSort (fun a b => decide (a ≤ b))) :=
      hsorted.imp (fun h => by simpa using h)
    exact (hle.and hnd').imp (fun h => lt_of_le_of_ne h.1 h.2)
  refine ⟨?_, ?_, ?_⟩
  · rw [process_uids, processBatch_processed env _ last hlt]
    exact (hlt.filter _).chain'
  · intro u hu
    rw [process_uids, processBatch_processed env _ last hlt] at hu
    have := List.of_mem_filter hu
    simpa using this
  · intro u hu hle e he
    have := processBatch_events_gt env _ last e he
    omega

/-- Witness for C7 on a concrete batch with one stale and one fresh identifier. -/
theorem process_uids_ordering_witness :
    ([3, 5] : List Nat).Nodup ∧
    (List.Chain' (· < ·) (processedUids (process_uids envAllOk [3, 5] 3).2) ∧
      (∀ u ∈ processedUids (process_uids envAllOk [3, 5] 3).2, 3 < u) ∧
      (∀ u ∈ [3, 5], u ≤ 3 → ∀ e ∈ (process_uids envAllOk [3, 5] 3).2, e.uid ≠ u)) :=
  ⟨by decide, process_uids_ordering envAllOk [3, 5] 3 (by decide)⟩

/-- C1 counterexample: a run where fetch succeeds but an exception escapes the
extraction step — the per-message handler catches it, no `set_last_uid` call is
made, and the cursor stays 0 instead of advancing to `max 0 5 = 5`. -/
theorem process_uids_no_advance_on_extract_raise :
    envExtractRaises.fetchOk 5 = true ∧
    process_uids envExtractRaises [5] 0 = (0, [Ev.fetch 5, Ev.extract 5]) ∧
    (process_uids envExtractRaises [5] 0).1 ≠ max 0 5 := by
  simp only [process_uids, List.mergeSort_singleton]
  decide

/-- C1 (amended): whenever fetch, From-header parsing, and the extraction call
all complete without raising — extraction may well return a failure result —
the pipeline sets the cursor to `max(cursor, uid)` and calls the cursor store,
regardless of the outcomes of the prepare, notify, delete, and display steps
(which are individually exception-isolated and range over all oracles here). -/
theorem processOne_cursor_advance (env : PipeEnv) (last uid : Nat)
    (hf : env.fetchOk uid = true) (hp : env.parseFromOk uid = true)
    (r : ExtractOutcome) (hex : env.extract uid = Except.ok r) :
    (processOne env last uid).1 = max last uid ∧
    Ev.setCursor uid (max last uid) ∈ (processOne env last uid).2 := by
  unfold processOne
  rcases r with paths | reason
  · by_cases hpe : paths.isEmpty
    · simp [hf, hp, hex, hpe]
    · rcases hpr : env.prepare uid with e | b
      · simp [hf, hp, hex, hpe, hpr]
      · cases b <;> simp [hf, hp, hex, hpe, hpr]
  · simp [hf, hp, hex]

/-- Witness for the amended C1: extraction completed with a failure result and
prepare raised, yet the cursor advanced from 2 to `max 2 5` and the store was
called. -/
theorem processOne_cursor_advance_witness :
    envStepsFail.fetchOk 5 = true ∧ envStepsFail.parseFromOk 5 = true ∧
    envStepsFail.extract 5 = Except.ok (ExtractOutcome.fail "no_valid_image") ∧
    ((processOne envStepsFail 2 5).1 = max 2 5 ∧
      Ev.setCursor 5 (max 2 5) ∈ (processOne envStepsFail 2 5).2) :=
  ⟨rfl, rfl, rfl, processOne_cursor_advance envStepsFail 2 5 rfl rfl _ rfl⟩

/-- Event `a` occurs at a strictly earlier position than event `b` in the
trace. -/
def seqBefore (a b : Ev) (l : List Ev) : Prop :=
  ∃ i j, i < j ∧ l.get? i = some a ∧ l.get? j = some b

/-- C9 counterexample: on a fully successful message, the mailbox delete step
runs before the display step, not after it as the claimed order
fetch → extract → notify → display → delete would require. -/
theorem process_uids_delete_precedes_display :
    (process_uids envAllOk [5] 0).2 =
      [Ev.fetch 5, Ev.extract 5, Ev.prepare 5, Ev.notify 5, Ev.delete 5,
       Ev.emptyTrash 5, Ev.display 5, Ev.setCursor 5 5] ∧
    (process_uids envAllOk [5] 0).2.indexOf (Ev.delete 5) <
      (process_uids envAllOk [5] 0).2.indexOf (Ev.display 5) ∧
    ¬ ((process_uids envAllOk [5] 0).2.indexOf (Ev.display 5) <
        (process_uids envAllOk [5] 0).2.indexOf (Ev.delete 5)) := by
  simp only [process_uids, List.mergeSort_singleton]
  decide

/-- C9 (amended): the per-message step order is fetch, extract, prepare,
notify, delete, empty-trash, display, cursor-advance; in every run in which a
display happens at all, the mailbox delete strictly precedes it. -/
theorem processOne_step_order (env : PipeEnv) (last uid : Nat)
    (hf : env.fetchOk uid = true) (hp : env.parseFromOk uid = true)
    (paths : List String) (hex : env.extract uid = Except.ok (ExtractOutcome.pass paths))
    (hpe : paths.isEmpty = false) (hpr : env.prepare uid = Except.ok true) :
    (processOne env last uid).2 =
      [Ev.fetch uid, Ev.extract uid, Ev.prepare uid, Ev.notify uid, Ev.delete uid,
       Ev.emptyTrash uid, Ev.display uid, Ev.setCursor uid (max last uid)] ∧
    ∀ (env2 : PipeEnv) (last2 uid2 : Nat),
      Ev.display uid2 ∈ (processOne env2 last2 uid2).2 →
      seqBefore (Ev.delete uid2) (Ev.display uid2) (processOne env2 last2 uid2).2 := by
  constructor
  · unfold processOne
    simp [hf, hp, hex, hpe, hpr]
  · intro env2 last2 uid2 hmem
    rcases processOne_spec env2 last2 uid2 with h | h | h | h | h
    · rw [h] at hmem
      simp at hmem
    · rw [h] at hmem
      simp at hmem
    · rw [h] at hmem
      simp at hmem
    · rw [h] at hmem
      simp at hmem
    · rw [h]
      exact ⟨4, 6, by omega, rfl, rfl⟩

/-- Witness for the amended C9 on a fully successful concrete run. -/
theorem processOne_step_order_witness :
    envAllOk.fetchOk 5 = true ∧ envAllOk.parseFromOk 5 = true ∧
    envAllOk.extract 5 = Except.ok (ExtractOutcome.pass ["img"]) ∧
    (["img"] : List String).isEmpty = false ∧
    envAllOk.prepare 5 = Except.ok true ∧
    ((processOne envAllOk 0 5).2 =
      [Ev.fetch 5, Ev.extract 5, Ev.prepare 5, Ev.notify 5, Ev.delete 5,
       Ev.emptyTrash 5, Ev.display 5, Ev.setCursor 5 (max 0 5)] ∧
    ∀ (env2 : PipeEnv) (last2 uid2 : Nat),
      Ev.display uid2 ∈ (processOne env2 last2 uid2).2 →
      seqBefore (Ev.delete uid2) (Ev.display uid2) (processOne env2 last2 uid2).2) :=
  ⟨rfl, rfl, rfl, rfl, rfl, processOne_step_order envAllOk 0 5 rfl rfl ["img"] rfl rfl rfl⟩

/-! ## Extractor lemmas and claims about `process_message_bytes` -/

theorem isProcessedAttachment_fields (p : Part) (pl : List Nat)
    (hc : isProcessedAttachment p = true) (hpl : p.payload = some pl) :
    ¬ (p.contentDisposition = "") ∧ p.isMultipartContainer = false ∧
      pl.isEmpty = false := by
  unfold isProcessedAttachment at hc
  rw [hpl] at hc
  simp only [Bool.and_eq_true, Bool.not_eq_true', beq_eq_false_iff_ne] at hc
  exact ⟨hc.1.1, hc.1.2, hc.2⟩

theorem oversized_fields (p : Part) (max_bytes : Nat) (h : oversized p max_bytes = true) :
    isProcessedAttachment p = true ∧
      ∃ pl, p.payload = some pl ∧ max_bytes < pl.length := by
  unfold oversized at h
  rcases hpl : p.payload with _ | pl
  · rw [hpl] at h
    simp at h
  · rw [hpl] at h
    simp only [Bool.and_eq_true, decide_eq_true_eq] at h
    exact ⟨h.1, pl, rfl, h.2⟩

/-- A part that does not reach the size check is skipped with no effect. -/
theorem processLoop_cons_skip (env : Env) (tmp_dir data_dir : String) (max_bytes : Nat)
    (part : Part) (rest : List Part) (fs : FS) (saved : List String)
    (h : isProcessedAttachment part = false) :
    processLoop env tmp_dir data_dir max_bytes (part :: rest) fs saved =
      processLoop env tmp_dir data_dir max_bytes rest fs saved := by
  unfold isProcessedAttachment at h
  conv_lhs => rw [processLoop]
  by_cases hd : part.contentDisposition = ""
  · rw [if_pos hd]
  · rw [if_neg hd]
    rcases hm : part.isMultipartContainer
    · rw [if_neg (by simp [hm])]
      rcases hpl : part.payload with _ | pl
      · simp only [hpl]
      · simp only [hpl]
        have hemp : pl.isEmpty = true := by
          rcases hpe : pl.isEmpty
          · exfalso
            rw [hpl] at h
            simp [hd, hm, hpe] at h
          · rfl
        rw [if_pos hemp]
    · rw [if_pos (by simp [hm])]

/-- An oversized part aborts the whole message at once, leaving the filesystem
as it was. -/
theorem processLoop_cons_oversized (env : Env) (tmp_dir data_dir : String)
    (max_bytes : Nat) (part : Part) (rest : List Part) (fs : FS) (saved : List String)
    (hov : oversized part max_bytes = true) :
    processLoop env tmp_dir data_dir max_bytes (part :: rest) fs saved =
      Except.ok ({ ok := false, reason := some "attachment_too_large",
                   filename := some (partFilename part), paths := [] }, fs) := by
  obtain ⟨hc, pl, hpl, hsize⟩ := oversized_fields part max_bytes hov
  obtain ⟨hd, hm, hemp⟩ := isProcessedAttachment_fields part pl hc hpl
  conv_lhs => rw [processLoop]
  rw [if_neg hd, if_neg (by simp [hm])]
  simp only [hpl]
  rw [if_neg (by simp [hemp]), if_pos hsize]

/-- A part whose payload fails image validation has its temp file written and
then deleted, and processing continues with the next part on the resulting
filesystem. -/
theorem processLoop_cons_invalid (env : Env) (tmp_dir data_dir : String)
    (max_bytes : Nat) (part : Part) (rest : List Part) (fs : FS) (saved : List String)
    (pl : List Nat) (h2 : env.mkstempOk = true)
    (hc : isProcessedAttachment part = true) (hpl : part.payload = some pl)
    (hsize : pl.length ≤ max_bytes)
    (hbad : (is_image_mime (env.sniffMime pl) && env.pilVerifyOk pl) = false) :
    processLoop env tmp_dir data_dir max_bytes (part :: rest) fs saved =
      processLoop env tmp_dir data_dir max_bytes rest
        (removeQuiet env
          ⟨(mkstempPath tmp_dir fs.mkstempCounter (partFilename part), pl) :: fs.files,
           fs.mkstempCounter + 1⟩
          (mkstempPath tmp_dir fs.mkstempCounter (partFilename part)))
        saved := by
  obtain ⟨hd, hm, hemp⟩ := isProcessedAttachment_fields part pl hc hpl
  have hsave : save_attachment_bytes env fs pl tmp_dir (partFilename part) =
      Except.ok (mkstempPath tmp_dir fs.mkstempCounter (partFilename part),
        ⟨(mkstempPath tmp_dir fs.mkstempCounter (partFilename part), pl) :: fs.files,
         fs.mkstempCounter + 1⟩) := by
    simp [save_attachment_bytes, h2]
  have hval : validate_and_sanitize_image env
      ⟨(mkstempPath tmp_dir fs.mkstempCounter (partFilename part), pl) :: fs.files,
       fs.mkstempCounter + 1⟩
      (mkstempPath tmp_dir fs.mkstempCounter (partFilename part)) = Except.ok false := by
    simp only [validate_and_sanitize_image, lookupPairs, if_pos rfl]
    rcases hmime : is_image_mime (env.sniffMime pl)
    · simp [hmime]
    · rw [hmime] at hbad
      simp only [Bool.true_and] at hbad
      simp [hbad]
  conv_lhs => rw [processLoop]
  rw [if_neg hd, if_neg (by simp [hm])]
  simp only [hpl]
  rw [if_neg (by simp [hemp]), if_neg (by omega)]
  simp only [hsave, hval]

/-- A part whose payload passes image validation is saved to a fresh temp file
and atomically moved into the data directory, and processing continues with the
final path recorded. -/
theorem processLoop_cons_valid (env : Env) (tmp_dir data_dir : String)
    (max_bytes : Nat) (part : Part) (rest : List Part) (fs : FS) (saved : List String)
    (pl : List Nat) (h2 : env.mkstempOk = true) (h3 : env.replaceOk = true)
    (hc : isProcessedAttachment part = true) (hpl : part.payload = some pl)
    (hsize : pl.length ≤ max_bytes)
    (hmime : is_image_mime (env.sniffMime pl) = true)
    (hpil : env.pilVerifyOk pl = true) :
    processLoop env tmp_dir data_dir max_bytes (part :: rest) fs saved =
      processLoop env tmp_dir data_dir max_bytes rest
        (replaceFile
          ⟨(mkstempPath tmp_dir fs.mkstempCounter (partFilename part), pl) :: fs.files,
           fs.mkstempCounter + 1⟩
          (mkstempPath tmp_dir fs.mkstempCounter (partFilename part))
          (data_dir ++ "/" ++
            basename (mkstempPath tmp_dir fs.mkstempCounter (partFilename part))))
        (saved ++
          [data_dir ++ "/" ++
            basename (mkstempPath tmp_dir fs.mkstempCounter (partFilename part))]) := by
  obtain ⟨hd, hm, hemp⟩ := isProcessedAttachment_fields part pl hc hpl
  have hsave : save_attachment_bytes env fs pl tmp_dir (partFilename part) =
      Except.ok (mkstempPath tmp_dir fs.mkstempCounter (partFilename part),
        ⟨(mkstempPath tmp_dir fs.mkstempCounter (partFilename part), pl) :: fs.files,
         fs.mkstempCounter + 1⟩) := by
    simp [save_attachment_bytes, h2]
  have hval : validate_and_sanitize_image env
      ⟨(mkstempPath tmp_dir fs.mkstempCounter (partFilename part), pl) :: fs.files,
       fs.mkstempCounter + 1⟩
      (mkstempPath tmp_dir fs.mkstempCounter (partFilename part)) = Except.ok true := by
    simp only [validate_and_sanitize_image, lookupPairs, if_pos rfl]
    simp [hmime, hpil]
  conv_lhs => rw [processLoop]
  rw [if_neg hd, if_neg (by simp [hm])]
  simp only [hpl]
  rw [if_neg (by simp [hemp]), if_neg (by omega)]
  simp only [hsave, hval, if_pos h3]

theorem takeWhile_all_append {p : Char → Bool} (l₁ l₂ : List Char)
    (h : ∀ c ∈ l₁, p c = true) :
    List.takeWhile p (l₁ ++ l₂) = l₁ ++ List.takeWhile p l₂ := by
  induction l₁ with
  | nil => simp
  | cons a l ih =>
    have ha : p a = true := h a (by simp)
    simp [List.takeWhile_cons, ha, ih (fun c hc => h c (by simp [hc]))]

theorem basename_mkstempPath (tmp_dir fn : String) (c : Nat)
    (hfn : ∀ ch ∈ fn.data, ch ≠ '/') :
    basename (mkstempPath tmp_dir c fn) = "attach-" ++ freshSuffix c ++ "-" ++ fn := by
  apply String.ext
  simp only [basename, mkstempPath, freshSuffix, String.data_append, List.reverse_append,
    List.append_assoc]
  have h1 : ∀ ch ∈ fn.data.reverse, (fun c0 => !(c0 == '/')) ch = true := by
    intro ch hch
    simp only [List.mem_reverse] at hch
    simp [hfn ch hch]
  have h2 : ∀ ch ∈ List.replicate c 'x', (fun c0 => !(c0 == '/')) ch = true := by
    intro ch hch
    rw [List.eq_of_mem_replicate hch]
    rfl
  rw [takeWhile_all_append _ _ h1]
  rw [show (['-'] : List Char).reverse = ['-'] from rfl,
    show (['/', 'a', 't', 't', 'a', 'c', 'h', '-'] : List Char).reverse =
      ['-', 'h', 'c', 'a', 't', 't', 'a', '/'] from rfl,
    List.reverse_replicate]
  have hmid : List.takeWhile (fun c0 => !(c0 == '/'))
      (['-'] ++ (List.replicate c 'x' ++
        (['-', 'h', 'c', 'a', 't', 't', 'a', '/'] ++ tmp_dir.data.reverse)))
      = '-' :: (List.replicate c 'x' ++ ['-', 'h', 'c', 'a', 't', 't', 'a']) := by
    rw [show (['-'] : List Char) ++ (List.replicate c 'x' ++
        (['-', 'h', 'c', 'a', 't', 't', 'a', '/'] ++ tmp_dir.data.reverse)) =
      '-' :: (List.replicate c 'x' ++
        (['-', 'h', 'c', 'a', 't', 't', 'a', '/'] ++ tmp_dir.data.reverse)) from rfl]
    rw [List.takeWhile_cons]
    simp only [show (!('-' == '/')) = true from rfl, if_true]
    rw [takeWhile_all_append _ _ h2]
    simp [List.takeWhile_cons]
  rw [hmid]
  simp [List.reverse_append, List.reverse_replicate]

theorem length_freshSuffix (c : Nat) : (freshSuffix c).length = c := by
  simp [freshSuffix, String.length_mk]

theorem final_path_ne (data_dir tmp_dir fn : String) (c : Nat)
    (hfn : ∀ ch ∈ fn.data, ch ≠ '/') :
    data_dir ++ "/" ++ basename (mkstempPath tmp_dir c fn) ≠
      data_dir ++ "/" ++ basename (mkstempPath tmp_dir (c + 1) fn) := by
  intro h
  rw [basename_mkstempPath tmp_dir fn c hfn, basename_mkstempPath tmp_dir fn (c + 1) hfn] at h
  have hl := congrArg String.length h
  simp only [String.length_append, length_freshSuffix] at hl
  omega

theorem lookupPairs_replaceFile_dst (fs : FS) (src dst : String) (c : List Nat)
    (h : lookupPairs fs.files src = some c) :
    lookupPairs (replaceFile fs src dst).files dst = some c := by
  simp only [replaceFile, h]
  by_cases hsd : src = dst
  · rw [if_pos hsd]
    rw [← hsd]
    exact h
  · rw [if_neg hsd]
    exact lookupPairs_setPairs_self _ _ _

theorem replaceFile_counter (fs : FS) (src dst : String) :
    (replaceFile fs src dst).mkstempCounter = fs.mkstempCounter := by
  rcases h : lookupPairs fs.files src with _ | c
  · simp [replaceFile, h]
  · by_cases hsd : src = dst
    · subst hsd
      simp [replaceFile, h]
    · simp [replaceFile, h, hsd]

/-- A part that is not oversized reduces the loop to its tail on some updated
filesystem and path accumulator (provided temp-file creation and the final
rename succeed when they are reached). -/
theorem processLoop_cons_reduce (env : Env) (tmp_dir data_dir : String)
    (max_bytes : Nat) (part : Part) (rest : List Part) (fs : FS) (saved : List String)
    (h2 : env.mkstempOk = true) (h3 : env.replaceOk = true)
    (hov : oversized part max_bytes = false) :
    ∃ fs' saved',
      processLoop env tmp_dir data_dir max_bytes (part :: rest) fs saved =
        processLoop env tmp_dir data_dir max_bytes rest fs' saved' := by
  rcases hcand : isProcessedAttachment part
  · exact ⟨fs, saved,
      processLoop_cons_skip env tmp_dir data_dir max_bytes part rest fs saved hcand⟩
  · obtain ⟨pl, hpl⟩ : ∃ pl, part.payload = some pl := by
      unfold isProcessedAttachment at hcand
      rcases hp : part.payload with _ | pl
      · rw [hp] at hcand
        simp at hcand
      · exact ⟨pl, rfl⟩
    have hsize : pl.length ≤ max_bytes := by
      unfold oversized at hov
      rw [hcand, hpl] at hov
      simp at hov
      omega
    rcases hvalid : (is_image_mime (env.sniffMime pl) && env.pilVerifyOk pl)
    · exact ⟨_, saved,
        processLoop_cons_invalid env tmp_dir data_dir max_bytes part rest fs saved pl
          h2 hcand hpl hsize hvalid⟩
    · have hv := hvalid
      simp only [Bool.and_eq_true] at hv
      exact ⟨_, _,
        processLoop_cons_valid env tmp_dir data_dir max_bytes part rest fs saved pl
          h2 h3 hcand hpl hsize hv.1 hv.2⟩

theorem processLoop_total (env : Env) (tmp_dir data_dir : String) (max_bytes : Nat)
    (h2 : env.mkstempOk = true) (h3 : env.replaceOk = true) :
    ∀ (parts : List Part) (fs : FS) (saved : List String),
      ∃ r, processLoop env tmp_dir data_dir max_bytes parts fs saved = Except.ok r := by
  intro parts
  induction parts with
  | nil =>
    intro fs saved
    rcases hs : saved.isEmpty
    · refine ⟨({ ok := true, reason := none, filename := none, paths := saved }, fs), ?_⟩
      conv_lhs => rw [processLoop]
      rw [if_neg (by simp [hs])]
    · refine ⟨({ ok := false, reason := some "no_valid_image",
                 filename := none, paths := [] }, fs), ?_⟩
      conv_lhs => rw [processLoop]
      rw [if_pos hs]
  | cons part rest ih =>
    intro fs saved
    rcases hov : oversized part max_bytes
    · obtain ⟨fs', saved', heq⟩ :=
        processLoop_cons_reduce env tmp_dir data_dir max_bytes part rest fs saved h2 h3 hov
      rw [heq]
      exact ih fs' saved'
    · rw [processLoop_cons_oversized env tmp_dir data_dir max_bytes part rest fs saved hov]
      exact ⟨_, rfl⟩

theorem processLoop_pre_skip (env : Env) (tmp_dir data_dir : String) (max_bytes : Nat) :
    ∀ (pre rest : List Part) (fs : FS) (saved : List String),
      (∀ q ∈ pre, isProcessedAttachment q = false) →
      processLoop env tmp_dir data_dir max_bytes (pre ++ rest) fs saved =
        processLoop env tmp_dir data_dir max_bytes rest fs saved := by
  intro pre
  induction pre with
  | nil => intro rest fs saved _; rfl
  | cons q pre' ih =>
    intro rest fs saved hq
    rw [List.cons_append,
      processLoop_cons_skip env tmp_dir data_dir max_bytes q (pre' ++ rest) fs saved
        (hq q (by simp))]
    exact ih rest fs saved (fun q' hq' => hq q' (by simp [hq']))

theorem processLoop_all_invalid (env : Env) (tmp_dir data_dir : String) (max_bytes : Nat)
    (h2 : env.mkstempOk = true) :
    ∀ (parts : List Part) (fs : FS),
      (∀ p ∈ parts, oversized p max_bytes = false) →
      (∀ p ∈ parts, ∀ pl, p.payload = some pl →
        (is_image_mime (env.sniffMime pl) && env.pilVerifyOk pl) = false) →
      ∃ fs', processLoop env tmp_dir data_dir max_bytes parts fs [] =
        Except.ok ({ ok := false, reason := some "no_valid_image",
                     filename := none, paths := [] }, fs') := by
  intro parts
  induction parts with
  | nil =>
    intro fs _ _
    exact ⟨fs, rfl⟩
  | cons part rest ih =>
    intro fs hov hbad
    rcases hcand : isProcessedAttachment part
    · rw [processLoop_cons_skip env tmp_dir data_dir max_bytes part rest fs [] hcand]
      exact ih fs (fun p hp => hov p (by simp [hp]))
        (fun p hp pl hpl => hbad p (by simp [hp]) pl hpl)
    · obtain ⟨pl, hpl⟩ : ∃ pl, part.payload = some pl := by
        unfold isProcessedAttachment at hcand
        rcases hp : part.payload with _ | pl
        · rw [hp] at hcand
          simp at hcand
        · exact ⟨pl, rfl⟩
      have hsize : pl.length ≤ max_bytes := by
        have := hov part (by simp)
        unfold oversized at this
        rw [hcand, hpl] at this
        simp at this
        omega
      rw [processLoop_cons_invalid env tmp_dir data_dir max_bytes part rest fs [] pl
        h2 hcand hpl hsize (hbad part (by simp) pl hpl)]
      exact ih _ (fun p hp => hov p (by simp [hp]))
        (fun p hp pl' hpl' => hbad p (by simp [hp]) pl' hpl')

theorem processLoop_too_large_of_mem (env : Env) (tmp_dir data_dir : String)
    (max_bytes : Nat) (h2 : env.mkstempOk = true) (h3 : env.replaceOk = true) :
    ∀ (parts : List Part) (fs : FS) (saved : List String) (p : Part),
      p ∈ parts → oversized p max_bytes = true →
      ∃ fn fs', processLoop env tmp_dir data_dir max_bytes parts fs saved =
        Except.ok ({ ok := false, reason := some "attachment_too_large",
                     filename := some fn, paths := [] }, fs') := by
  intro parts
  induction parts with
  | nil =>
    intro fs saved p hp
    simp at hp
  | cons part rest ih =>
    intro fs saved p hp hov
    rcases hhead : oversized part max_bytes
    · have hp' : p ∈ rest := by
        rcases List.mem_cons.mp hp with he | he
        · subst he
          rw [hhead] at hov
          simp at hov
        · exact he
      obtain ⟨fs1, saved1, heq⟩ :=
        processLoop_cons_reduce env tmp_dir data_dir max_bytes part rest fs saved h2 h3 hhead
      rw [heq]
      exact ih fs1 saved1 p hp' hov
    · exact ⟨partFilename part, fs,
        processLoop_cons_oversized env tmp_dir data_dir max_bytes part rest fs saved hhead⟩

theorem removeQuiet_counter (env : Env) (fs : FS) (p : String) :
    (removeQuiet env fs p).mkstempCounter = fs.mkstempCounter := by
  unfold removeQuiet
  by_cases h : env.removeOk <;> simp [h]

/-- Environment in which every system call succeeds and every payload sniffs as
a PNG image and passes PIL verification. -/
def envImages : Env :=
  ⟨true, true, true, true, fun _ => "image/png", fun _ => true⟩

/-- Environment in which `os.makedirs(data_dir)` raises `OSError` and everything
else would succeed. -/
def envMakedirsFails : Env :=
  ⟨false, true, true, true, fun _ => "image/png", fun _ => true⟩

/-- Environment in which one-byte payloads sniff as plain text and all other
payloads sniff as PNG images; PIL accepts everything it is shown. -/
def envSniff : Env :=
  ⟨true, true, true, true,
   fun pl => if pl.length == 1 then "text/plain" else "image/png", fun _ => true⟩

/-- A single well-formed image attachment part. -/
def partImg : Part := ⟨"attachment", false, some "img.png", some [1, 2, 3]⟩

/-- An attachment part whose five-byte payload exceeds a four-byte limit. -/
def partBig : Part := ⟨"attachment", false, some "big.png", some [1, 2, 3, 4, 5]⟩

/-- A part with no Content-Disposition header (skipped by the loop). -/
def partNoDisp : Part := ⟨"", false, some "x", some [1, 2]⟩

/-- An attachment part whose one-byte payload `envSniff` rejects as text. -/
def partBad : Part := ⟨"attachment", false, some "bad.txt", some [9]⟩

/-- C2 counterexample: when `os.makedirs(data_dir)` raises `OSError`, the
exception escapes `process_message_bytes` instead of being mapped to a failure
result. -/
theorem process_message_bytes_can_raise :
    process_message_bytes envMakedirsFails [partImg] ⟨[], 0⟩ "t" "d" 10 =
      Except.error PyErr.oserror := rfl

/-- C2 (amended): extraction returns a Processing Result — never an exception —
provided its filesystem operations (data-directory creation, temp-file creation
and write, final rename) succeed; exceptions from those operations propagate to
the caller instead of being mapped to a failure result, and only
image-verification errors are caught internally. -/
theorem process_message_bytes_total_when_io_ok (env : Env) (parts : List Part)
    (fs : FS) (tmp_dir data_dir : String) (max_bytes : Nat)
    (h1 : env.makedirsOk = true) (h2 : env.mkstempOk = true)
    (h3 : env.replaceOk = true) :
    ∃ r, process_message_bytes env parts fs tmp_dir data_dir max_bytes = Except.ok r := by
  unfold process_message_bytes
  rw [if_pos h1]
  exact processLoop_total env tmp_dir data_dir max_bytes h2 h3 parts fs []

/-- Witness for the amended C2 on a concrete one-image message. -/
theorem process_message_bytes_total_witness :
    envImages.makedirsOk = true ∧ envImages.mkstempOk = true ∧
    envImages.replaceOk = true ∧
    ∃ r, process_message_bytes envImages [partImg] ⟨[], 0⟩ "t" "d" 10 = Except.ok r :=
  ⟨rfl, rfl, rfl,
   process_message_bytes_total_when_io_ok envImages [partImg] ⟨[], 0⟩ "t" "d" 10
     rfl rfl rfl⟩

/-- C5: a message containing an attachment part whose decoded payload exceeds
the limit fails as a whole with reason `attachment_too_large`; and when the
oversized part is the sole attachment (everything before it is skipped, not
stored), the filesystem comes back exactly as it went in — zero files are
stored. -/
theorem process_message_bytes_attachment_too_large
    (env : Env) (fs : FS) (tmp_dir data_dir : String) (max_bytes : Nat)
    (h1 : env.makedirsOk = true) (h2 : env.mkstempOk = true)
    (h3 : env.replaceOk = true) :
    (∀ (parts : List Part) (p : Part), p ∈ parts → oversized p max_bytes = true →
      ∃ fn fs', process_message_bytes env parts fs tmp_dir data_dir max_bytes =
        Except.ok ({ ok := false, reason := some "attachment_too_large",
                     filename := some fn, paths := [] }, fs')) ∧
    (∀ (pre post : List Part) (big : Part),
      (∀ q ∈ pre, isProcessedAttachment q = false) →
      oversized big max_bytes = true →
      process_message_bytes env (pre ++ big :: post) fs tmp_dir data_dir max_bytes =
        Except.ok ({ ok := false, reason := some "attachment_too_large",
                     filename := some (partFilename big), paths := [] }, fs)) := by
  constructor
  · intro parts p hp hov
    unfold process_message_bytes
    rw [if_pos h1]
    exact processLoop_too_large_of_mem env tmp_dir data_dir max_bytes h2 h3 parts fs []
      p hp hov
  · intro pre post big hpre hov
    unfold process_message_bytes
    rw [if_pos h1,
      processLoop_pre_skip env tmp_dir data_dir max_bytes pre (big :: post) fs [] hpre,
      processLoop_cons_oversized env tmp_dir data_dir max_bytes big post fs [] hov]

/-- Witness for C5 with a skipped header-less part followed by an oversized
attachment under a 4-byte limit. -/
theorem process_message_bytes_attachment_too_large_witness :
    envImages.makedirsOk = true ∧ envImages.mkstempOk = true ∧
    envImages.replaceOk = true ∧
    partBig ∈ [partNoDisp, partBig] ∧ oversized partBig 4 = true ∧
    (∀ q ∈ [partNoDisp], isProcessedAttachment q = false) ∧
    (∃ fn fs', process_message_bytes envImages [partNoDisp, partBig] ⟨[], 0⟩ "t" "d" 4 =
      Except.ok ({ ok := false, reason := some "attachment_too_large",
                   filename := some fn, paths := [] }, fs')) ∧
    process_message_bytes envImages ([partNoDisp] ++ partBig :: []) ⟨[], 0⟩ "t" "d" 4 =
      Except.ok ({ ok := false, reason := some "attachment_too_large",
                   filename := some (partFilename partBig), paths := [] }, ⟨[], 0⟩) :=
  ⟨rfl, rfl, rfl, by decide, by decide, by decide,
   (process_message_bytes_attachment_too_large envImages ⟨[], 0⟩ "t" "d" 4
     rfl rfl rfl).1 [partNoDisp, partBig] partBig (by decide) (by decide),
   (process_message_bytes_attachment_too_large envImages ⟨[], 0⟩ "t" "d" 4
     rfl rfl rfl).2 [partNoDisp] [] partBig (by decide) (by decide)⟩

/-- C6: an attachment that fails image validation has its temp file deleted and
the loop continues with the next attachment; a message with one invalid and one
valid image attachment still stores and reports the valid one; and a message in
which no attachment passes validation (and none is oversized) fails with reason
`no_valid_image`. -/
theorem process_message_bytes_invalid_image_handling
    (env : Env) (tmp_dir data_dir : String) (max_bytes : Nat)
    (h1 : env.makedirsOk = true) (h2 : env.mkstempOk = true)
    (h3 : env.replaceOk = true) (h4 : env.removeOk = true) :
    (∀ (part : Part) (rest : List Part) (fs : FS) (saved : List String) (pl : List Nat),
      isProcessedAttachment part = true → part.payload = some pl →
      pl.length ≤ max_bytes →
      (is_image_mime (env.sniffMime pl) && env.pilVerifyOk pl) = false →
      processLoop env tmp_dir data_dir max_bytes (part :: rest) fs saved =
        processLoop env tmp_dir data_dir max_bytes rest
          ⟨delPairs ((mkstempPath tmp_dir fs.mkstempCounter (partFilename part), pl)
              :: fs.files)
              (mkstempPath tmp_dir fs.mkstempCounter (partFilename part)),
            fs.mkstempCounter + 1⟩ saved ∧
      lookupPairs
          (delPairs ((mkstempPath tmp_dir fs.mkstempCounter (partFilename part), pl)
              :: fs.files)
            (mkstempPath tmp_dir fs.mkstempCounter (partFilename part)))
          (mkstempPath tmp_dir fs.mkstempCounter (partFilename part)) = none) ∧
    (∀ (bad good : Part) (fs : FS) (bpl gpl : List Nat),
      isProcessedAttachment bad = true → bad.payload = some bpl →
      bpl.length ≤ max_bytes →
      (is_image_mime (env.sniffMime bpl) && env.pilVerifyOk bpl) = false →
      isProcessedAttachment good = true → good.payload = some gpl →
      gpl.length ≤ max_bytes →
      is_image_mime (env.sniffMime gpl) = true → env.pilVerifyOk gpl = true →
      ∃ fs', process_message_bytes env [bad, good] fs tmp_dir data_dir max_bytes =
          Except.ok
            ({ ok := true, reason := none, filename := none,
               paths := [data_dir ++ "/" ++
                 basename (mkstempPath tmp_dir (fs.mkstempCounter + 1)
                   (partFilename good))] }, fs') ∧
        lookupPairs fs'.files
            (data_dir ++ "/" ++
              basename (mkstempPath tmp_dir (fs.mkstempCounter + 1) (partFilename good)))
          = some gpl) ∧
    (∀ (parts : List Part) (fs : FS),
      (∀ p ∈ parts, oversized p max_bytes = false) →
      (∀ p ∈ parts, ∀ pl, p.payload = some pl →
        (is_image_mime (env.sniffMime pl) && env.pilVerifyOk pl) = false) →
      ∃ fs', process_message_bytes env parts fs tmp_dir data_dir max_bytes =
        Except.ok ({ ok := false, reason := some "no_valid_image",
                     filename := none, paths := [] }, fs')) := by
  refine ⟨?_, ?_, ?_⟩
  · intro part rest fs saved pl hc hpl hsize hbad
    constructor
    · rw [processLoop_cons_invalid env tmp_dir data_dir max_bytes part rest fs saved pl
        h2 hc hpl hsize hbad]
      simp [removeQuiet, h4]
    · exact lookupPairs_delPairs_self _ _
  · intro bad good fs bpl gpl hcb hbp hbs hbad hcg hgp hgs hgm hgv
    obtain ⟨files, c⟩ := fs
    unfold process_message_bytes
    rw [if_pos h1]
    rw [processLoop_cons_invalid env tmp_dir data_dir max_bytes bad [good] ⟨files, c⟩ []
      bpl h2 hcb hbp hbs hbad]
    have hrq : removeQuiet env
        ⟨(mkstempPath tmp_dir c (partFilename bad), bpl) :: files, c + 1⟩
        (mkstempPath tmp_dir c (partFilename bad)) =
        ⟨delPairs ((mkstempPath tmp_dir c (partFilename bad), bpl) :: files)
          (mkstempPath tmp_dir c (partFilename bad)), c + 1⟩ := by
      simp [removeQuiet, h4]
    rw [hrq]
    rw [processLoop_cons_valid env tmp_dir data_dir max_bytes good []
      ⟨delPairs ((mkstempPath tmp_dir c (partFilename bad), bpl) :: files)
        (mkstempPath tmp_dir c (partFilename bad)), c + 1⟩ []
      gpl h2 h3 hcg hgp hgs hgm hgv]
    refine ⟨_, rfl, ?_⟩
    exact lookupPairs_replaceFile_dst _ _ _ gpl (by simp [lookupPairs])
  · intro parts fs hov hbad
    unfold process_message_bytes
    rw [if_pos h1]
    exact processLoop_all_invalid env tmp_dir data_dir max_bytes h2 parts fs hov hbad

/-- Witness for C6: under `envSniff`, the one-byte text attachment is rejected
and removed while the three-byte image attachment is stored and reported. -/
theorem process_message_bytes_invalid_image_handling_witness :
    envSniff.makedirsOk = true ∧ envSniff.mkstempOk = true ∧
    envSniff.replaceOk = true ∧ envSniff.removeOk = true ∧
    (∃ fs', process_message_bytes envSniff [partBad, partImg] ⟨[], 0⟩ "t" "d" 10 =
        Except.ok
          ({ ok := true, reason := none, filename := none,
             paths := ["d" ++ "/" ++
               basename (mkstempPath "t" 1 (partFilename partImg))] }, fs') ∧
      lookupPairs fs'.files
          ("d" ++ "/" ++ basename (mkstempPath "t" 1 (partFilename partImg)))
        = some [1, 2, 3]) ∧
    (∃ fs', process_message_bytes envSniff [partBad] ⟨[], 0⟩ "t" "d" 10 =
      Except.ok ({ ok := false, reason := some "no_valid_image",
                   filename := none, paths := [] }, fs')) :=
  ⟨rfl, rfl, rfl, rfl,
   (process_message_bytes_invalid_image_handling envSniff "t" "d" 10
     rfl rfl rfl rfl).2.1 partBad partImg ⟨[], 0⟩ [9] [1, 2, 3]
     (by decide) rfl (by decide) rfl (by decide) rfl (by decide) rfl rfl,
   (process_message_bytes_invalid_image_handling envSniff "t" "d" 10
     rfl rfl rfl rfl).2.2 [partBad] ⟨[], 0⟩ (by decide)
     (by intro p hp pl hpl
         simp only [List.mem_singleton] at hp
         subst hp
         simp only [partBad] at hpl
         cases hpl
         rfl)⟩

/-- C10: when a valid image attachment precedes an oversized one, the failure
result `attachment_too_large` is returned even though the earlier image has
already been moved into the data directory and remains stored there — the abort
does not undo prior stores. -/
theorem process_message_bytes_partial_store_on_too_large
    (env : Env) (fs : FS) (tmp_dir data_dir : String) (max_bytes : Nat)
    (good big : Part) (gpl : List Nat)
    (h1 : env.makedirsOk = true) (h2 : env.mkstempOk = true)
    (h3 : env.replaceOk = true)
    (hcg : isProcessedAttachment good = true) (hgp : good.payload = some gpl)
    (hgs : gpl.length ≤ max_bytes)
    (hgm : is_image_mime (env.sniffMime gpl) = true) (hgv : env.pilVerifyOk gpl = true)
    (hbig : oversized big max_bytes = true) :
    ∃ fs', process_message_bytes env [good, big] fs tmp_dir data_dir max_bytes =
        Except.ok ({ ok := false, reason := some "attachment_too_large",
                     filename := some (partFilename big), paths := [] }, fs') ∧
      lookupPairs fs'.files
          (data_dir ++ "/" ++
            basename (mkstempPath tmp_dir fs.mkstempCounter (partFilename good)))
        = some gpl := by
  obtain ⟨files, c⟩ := fs
  unfold process_message_bytes
  rw [if_pos h1]
  rw [processLoop_cons_valid env tmp_dir data_dir max_bytes good [big] ⟨files, c⟩ []
    gpl h2 h3 hcg hgp hgs hgm hgv]
  rw [processLoop_cons_oversized env tmp_dir data_dir max_bytes big [] _ _ hbig]
  refine ⟨_, rfl, ?_⟩
  exact lookupPairs_replaceFile_dst _ _ _ gpl (by simp [lookupPairs])

/-- Witness for C10: the valid three-byte image is stored, then the oversized
attachment fails the message, and the stored file is still present. -/
theorem process_message_bytes_partial_store_witness :
    envImages.makedirsOk = true ∧ oversized partBig 4 = true ∧
    ∃ fs', process_message_bytes envImages [partImg, partBig] ⟨[], 0⟩ "t" "d" 4 =
        Except.ok ({ ok := false, reason := some "attachment_too_large",
                     filename := some (partFilename partBig), paths := [] }, fs') ∧
      lookupPairs fs'.files
          ("d" ++ "/" ++ basename (mkstempPath "t" 0 (partFilename partImg)))
        = some [1, 2, 3] :=
  ⟨rfl, by decide,
   process_message_bytes_partial_store_on_too_large envImages ⟨[], 0⟩ "t" "d" 4
     partImg partBig [1, 2, 3] rfl rfl rfl (by decide) rfl (by decide) rfl rfl
     (by decide)⟩

/-- C8 counterexample: reprocessing the identical raw bytes with the same
directories and an empty initial filesystem stores the same content a second
time under a fresh mkstemp-derived final path; the data directory then holds
two files with the same content — nothing is overwritten at a common path. -/
theorem process_message_bytes_rerun_new_path :
    process_message_bytes envImages [partImg] ⟨[], 0⟩ "t" "d" 10 =
      Except.ok ({ ok := true, reason := none, filename := none,
                   paths := ["d/attach--img.png"] },
        ⟨[("d/attach--img.png", [1, 2, 3])], 1⟩) ∧
    process_message_bytes envImages [partImg] ⟨[("d/attach--img.png", [1, 2, 3])], 1⟩
        "t" "d" 10 =
      Except.ok ({ ok := true, reason := none, filename := none,
                   paths := ["d/attach-x-img.png"] },
        ⟨[("d/attach--img.png", [1, 2, 3]), ("d/attach-x-img.png", [1, 2, 3])], 2⟩) ∧
    ("d/attach--img.png" : String) ≠ "d/attach-x-img.png" :=
  ⟨rfl, rfl, by decide⟩

/-- C8 (amended): running extraction twice on the same single-image message
with the same directories stores the same payload both times, but under two
distinct final paths — the second run creates a second file instead of
overwriting the first path. -/
theorem process_message_bytes_rerun_distinct_paths
    (env : Env) (fs : FS) (tmp_dir data_dir : String) (max_bytes : Nat)
    (part : Part) (pl : List Nat)
    (h1 : env.makedirsOk = true) (h2 : env.mkstempOk = true)
    (h3 : env.replaceOk = true)
    (hc : isProcessedAttachment part = true) (hpl : part.payload = some pl)
    (hsize : pl.length ≤ max_bytes)
    (hmime : is_image_mime (env.sniffMime pl) = true)
    (hpil : env.pilVerifyOk pl = true)
    (hfn : ∀ ch ∈ (partFilename part).data, ch ≠ '/') :
    ∃ fs1 fs2,
      process_message_bytes env [part] fs tmp_dir data_dir max_bytes =
        Except.ok
          ({ ok := true, reason := none, filename := none,
             paths := [data_dir ++ "/" ++
               basename (mkstempPath tmp_dir fs.mkstempCounter
                 (partFilename part))] }, fs1) ∧
      process_message_bytes env [part] fs1 tmp_dir data_dir max_bytes =
        Except.ok
          ({ ok := true, reason := none, filename := none,
             paths := [data_dir ++ "/" ++
               basename (mkstempPath tmp_dir (fs.mkstempCounter + 1)
                 (partFilename part))] }, fs2) ∧
      data_dir ++ "/" ++
          basename (mkstempPath tmp_dir fs.mkstempCounter (partFilename part)) ≠
        data_dir ++ "/" ++
          basename (mkstempPath tmp_dir (fs.mkstempCounter + 1) (partFilename part)) ∧
      lookupPairs fs2.files
          (data_dir ++ "/" ++
            basename (mkstempPath tmp_dir (fs.mkstempCounter + 1) (partFilename part)))
        = some pl := by
  obtain ⟨files, c⟩ := fs
  have hrun1 : process_message_bytes env [part] ⟨files, c⟩ tmp_dir data_dir max_bytes =
      Except.ok
        ({ ok := true, reason := none, filename := none,
           paths := [data_dir ++ "/" ++
             basename (mkstempPath tmp_dir c (partFilename part))] },
         replaceFile ⟨(mkstempPath tmp_dir c (partFilename part), pl) :: files, c + 1⟩
           (mkstempPath tmp_dir c (partFilename part))
           (data_dir ++ "/" ++ basename (mkstempPath tmp_dir c (partFilename part)))) := by
    unfold process_message_bytes
    rw [if_pos h1,
      processLoop_cons_valid env tmp_dir data_dir max_bytes part [] ⟨files, c⟩ []
        pl h2 h3 hc hpl hsize hmime hpil]
    exact rfl
  have hc1 : (replaceFile ⟨(mkstempPath tmp_dir c (partFilename part), pl) :: files, c + 1⟩
      (mkstempPath tmp_dir c (partFilename part))
      (data_dir ++ "/" ++
        basename (mkstempPath tmp_dir c (partFilename part)))).mkstempCounter = c + 1 :=
    replaceFile_counter _ _ _
  have hrun2 : process_message_bytes env [part]
      (replaceFile ⟨(mkstempPath tmp_dir c (partFilename part), pl) :: files, c + 1⟩
        (mkstempPath tmp_dir c (partFilename part))
        (data_dir ++ "/" ++ basename (mkstempPath tmp_dir c (partFilename part))))
      tmp_dir data_dir max_bytes =
      Except.ok
        ({ ok := true, reason := none, filename := none,
           paths := [data_dir ++ "/" ++
             basename (mkstempPath tmp_dir (c + 1) (partFilename part))] },
         replaceFile
           ⟨(mkstempPath tmp_dir (c + 1) (partFilename part), pl) ::
             (replaceFile ⟨(mkstempPath tmp_dir c (partFilename part), pl) :: files, c + 1⟩
               (mkstempPath tmp_dir c (partFilename part))
               (data_dir ++ "/" ++
                 basename (mkstempPath tmp_dir c (partFilename part)))).files, c + 2⟩
           (mkstempPath tmp_dir (c + 1) (partFilename part))
           (data_dir ++ "/" ++
             basename (mkstempPath tmp_dir (c + 1) (partFilename part)))) := by
    unfold process_message_bytes
    rw [if_pos h1,
      processLoop_cons_valid env tmp_dir data_dir max_bytes part []
        (replaceFile ⟨(mkstempPath tmp_dir c (partFilename part), pl) :: files, c + 1⟩
          (mkstempPath tmp_dir c (partFilename part))
          (data_dir ++ "/" ++ basename (mkstempPath tmp_dir c (partFilename part)))) []
        pl h2 h3 hc hpl hsize hmime hpil, hc1]
    exact rfl
  exact ⟨_, _, hrun1, hrun2,
    final_path_ne data_dir tmp_dir (partFilename part) c hfn,
    lookupPairs_replaceFile_dst _ _ _ pl (by simp [lookupPairs])⟩

/-- Witness for the amended C8 on the concrete one-image message. -/
theorem process_message_bytes_rerun_distinct_paths_witness :
    (∀ ch ∈ (partFilename partImg).data, ch ≠ '/') ∧
    ∃ fs1 fs2,
      process_message_bytes envImages [partImg] ⟨[], 0⟩ "t" "d" 10 =
        Except.ok
          ({ ok := true, reason := none, filename := none,
             paths := ["d" ++ "/" ++
               basename (mkstempPath "t" 0 (partFilename partImg))] }, fs1) ∧
      process_message_bytes envImages [partImg] fs1 "t" "d" 10 =
        Except.ok
          ({ ok := true, reason := none, filename := none,
             paths := ["d" ++ "/" ++
               basename (mkstempPath "t" 1 (partFilename partImg))] }, fs2) ∧
      "d" ++ "/" ++ basename (mkstempPath "t" 0 (partFilename partImg)) ≠
        "d" ++ "/" ++ basename (mkstempPath "t" 1 (partFilename partImg)) ∧
      lookupPairs fs2.files
          ("d" ++ "/" ++ basename (mkstempPath "t" 1 (partFilename partImg)))
        = some [1, 2, 3] :=
  ⟨by decide,
   process_message_bytes_rerun_distinct_paths envImages ⟨[], 0⟩ "t" "d" 10 partImg
     [1, 2, 3] rfl rfl rfl (by decide) rfl (by decide) (by decide) rfl (by decide)⟩

end Bilderrahmen
